import Mathlib

/-!
A shallow embedding of the VWI (Virtual Wire Interface) modem from
`src/Cosa/VWI.cpp`: symbol codec, frame checksum, timer/prescaler
calculator, receiver software PLL, `recv`, transmitter `send`, and the
timer-interrupt dispatcher.  Machine integers are modelled as `Nat`
with explicit reductions (`% 256`, `% 65536`) at the points where the
C code truncates.  The companion header `VWI.hh` is not part of the
sources; the constants and the one member function it declares are
modelled from the spec and marked as such below.
-/

set_option maxHeartbeats 4000000
set_option maxRecDepth 8000

namespace VWI

/-- Modelled from the spec: `VWI.hh` (which defines the maximum frame
size constant `MESSAGE_MAX`) is missing from the sources.  The spec
bounds declared frame lengths by `[4, MESSAGE_MAX]`; 30 is the
VirtualWire-compatible value, and the claims depend only on
`4 ≤ MESSAGE_MAX < 256`. -/
def MESSAGE_MAX : Nat := 30

/-- Modelled from the spec: maximum payload size from the missing
`VWI.hh`.  A frame is `count` plus payload plus the 2 checksum bytes
and `send` uses `count = len + 3`, so the payload bound is
`MESSAGE_MAX - 3`. -/
def PAYLOAD_MAX : Nat := MESSAGE_MAX - 3

/-- Number of preamble symbols; the `header` array in `VWI.cpp` has 8
entries. -/
def HEADER_MAX : Nat := 8

/-- Modelled from the spec: the PLL ramp maximum from the missing
`VWI.hh`.  The spec fixes the nominal per-tick increment at
"ramp max ÷ 8" (8 samples per bit); 160 is the VirtualWire-compatible
value. -/
def RAMP_MAX : Nat := 160

/-- Modelled from the spec: the nominal per-tick ramp increment,
"ramp maximum ÷ 8". -/
def RAMP_INC : Nat := RAMP_MAX / 8

/-- Modelled from the spec: the midpoint threshold the ramp is
compared against on a transition. -/
def RAMP_TRANSITION : Nat := RAMP_MAX / 2

/-- Modelled from the spec: ramp adjustment applied on early/late
transitions (VirtualWire-compatible value 9). -/
def RAMP_ADJUST : Nat := 9

/-- Modelled from the spec: ramp increment used when a transition
arrives early (below the midpoint threshold). -/
def RAMP_INC_RETARD : Nat := RAMP_INC - RAMP_ADJUST

/-- Modelled from the spec: ramp increment used when a transition
arrives late (at or above the midpoint threshold). -/
def RAMP_INC_ADVANCE : Nat := RAMP_INC + RAMP_ADJUST

/-- The 4-to-6 bit symbol table `VWI::symbols` (VWI.cpp lines 39-43). -/
def symbols : List Nat :=
  [0xd, 0xe, 0x13, 0x15, 0x16, 0x19, 0x1a, 0x1c,
   0x23, 0x25, 0x26, 0x29, 0x2a, 0x2c, 0x32, 0x34]

/-- The nibble-to-symbol encoding, `symbols[nibble]` as read with
`pgm_read_byte` at the call sites in `send`. -/
def encodeSym (n : Nat) : Nat := symbols.getD n 0

/-- `VWI::symbol_6to4` (VWI.cpp lines 56-63): linear scan of the
16-entry table, returning the first matching index, and 0 when no
entry matches. -/
def symbol_6to4 (symbol : Nat) : Nat :=
  ((List.range 16).find? (fun i => symbols.getD i 0 == symbol)).getD 0

/-- The `lo8` access of avr-libc: the low byte of a 16-bit value. -/
def lo8 (x : Nat) : Nat := x % 256

/-- The `hi8` access of avr-libc: the high byte of a 16-bit value. -/
def hi8 (x : Nat) : Nat := (x / 256) % 256

/-- The two `__data ^=` statements of avr-libc `_crc_ccitt_update`:
xor the byte with its own upper nibble shifted up, truncated to
`uint8_t`. -/
def mix (d : Nat) : Nat := (d ^^^ (d <<< 4)) % 256

/-- The return expression of avr-libc `_crc_ccitt_update`, given the
mixed data byte, truncated to the `uint16_t` return type. -/
def crcStep (crc d2 : Nat) : Nat :=
  (((d2 <<< 8) ||| hi8 crc) ^^^ (d2 >>> 4) ^^^ (d2 <<< 3)) % 65536

/-- The avr-libc `_crc_ccitt_update` routine from `<util/crc16.h>`
called by `VWI::CRC` and `send`: one step of the bit-reversed
CRC-CCITT.  The argument truncation mirrors the `uint8_t` data
parameter. -/
def crc_ccitt_update (crc data : Nat) : Nat :=
  crcStep crc (mix (lo8 data ^^^ lo8 crc))

/-- `VWI::CRC` (VWI.cpp lines 47-54): fold `_crc_ccitt_update` over
the byte sequence starting from the seed 0xFFFF. -/
def CRC (msg : List Nat) : Nat := msg.foldl crc_ccitt_update 0xffff

/-- The decode of one 12-bit window into a byte (VWI.cpp lines
155-156): the low 6 bits give the high nibble, the high 6 bits the low
nibble. -/
def decodedByte (bits : Nat) : Nat :=
  ((symbol_6to4 (bits &&& 0x3f)) <<< 4) ||| symbol_6to4 (bits >>> 6)

/-- The receiver state: the `VWI::Receiver` members used by `PLL`,
`recv` and the dispatcher.  The message buffer is modelled as a total
map from index to byte; the frame counters are modelled as unbounded
naturals. -/
structure Receiver where
  enabled : Bool
  sample : Bool
  last_sample : Bool
  pll_ramp : Nat
  integrator : Nat
  bits : Nat
  bit_count : Nat
  length : Nat
  count : Nat
  buffer : Nat → Nat
  active : Bool
  done : Bool
  good : Nat
  bad : Nat

/-- `PLL` step 1 (VWI.cpp line 121): integrate the current sample. -/
def integrate (s : Receiver) : Receiver :=
  if s.sample then { s with integrator := s.integrator + 1 } else s

/-- `PLL` ramp update (VWI.cpp lines 123-132): on a transition advance
by the retard or advance increment depending on the midpoint
threshold and latch the sample; otherwise advance by the nominal
increment. -/
def rampAdvance (s : Receiver) : Receiver :=
  if s.sample ≠ s.last_sample then
    { s with
      pll_ramp := s.pll_ramp +
        (if s.pll_ramp < RAMP_TRANSITION then RAMP_INC_RETARD
         else RAMP_INC_ADVANCE),
      last_sample := s.sample }
  else
    { s with pll_ramp := s.pll_ramp + RAMP_INC }

/-- `PLL` bit boundary (VWI.cpp lines 136-146): shift the 12-bit
window right, set its top bit by majority vote (integrator ≥ 5),
subtract the ramp maximum and reset the integrator. -/
def bitBoundary (s : Receiver) : Receiver :=
  { s with
    bits := (s.bits >>> 1) ||| (if 5 ≤ s.integrator then 0x800 else 0),
    pll_ramp := s.pll_ramp - RAMP_MAX,
    integrator := 0 }

/-- `PLL` framing step (VWI.cpp lines 148-194), run after a bit
boundary: while active, count bits and decode each completed 12-bit
window; the first decoded byte is the declared length and is checked
against `[4, MESSAGE_MAX]`; otherwise bytes are appended until the
declared length is reached.  While not active, compare the window to
the start marker 0xb38. -/
def processBit (s : Receiver) : Receiver :=
  if s.active then
    let s1 := { s with bit_count := s.bit_count + 1 }
    if s1.bit_count < 12 then s1
    else
      let data := decodedByte s1.bits
      if s1.length = 0 ∧ (data < 4 ∨ MESSAGE_MAX < data) then
        { s1 with count := data, active := false, bad := s1.bad + 1 }
      else
        let s2 := if s1.length = 0 then { s1 with count := data } else s1
        let s3 := { s2 with
                    buffer := Function.update s2.buffer s2.length data,
                    length := s2.length + 1 }
        let s4 := if s3.count ≤ s3.length then
                    { s3 with active := false, good := s3.good + 1,
                              done := true }
                  else s3
        { s4 with bit_count := 0 }
  else if s.bits = 0xb38 then
    { s with active := true, bit_count := 0, length := 0, done := false }
  else s

/-- `VWI::Receiver::PLL` (VWI.cpp lines 117-196): integrate, advance
the ramp, and on reaching the ramp maximum process one recovered
bit. -/
def PLL (s : Receiver) : Receiver :=
  let s2 := rampAdvance (integrate s)
  if s2.pll_ramp < RAMP_MAX then s2 else processBit (bitBoundary s2)

/-- The payload length `rxlen = m_length - 3` computed by `recv`
(VWI.cpp line 286), with the `uint8_t` wrap-around of the
subtraction made explicit. -/
def rxlen (s : Receiver) : Nat := (s.length + 253) % 256

/-- The first `m_length` bytes of the receive buffer, the range
`VWI::CRC` is applied to in `recv`. -/
def messageBytes (s : Receiver) : List Nat :=
  (List.range s.length).map s.buffer

/-- Result of a `recv` call: the returned boolean, the value left in
`*len`, the bytes copied to the caller's buffer, and the receiver
state afterwards. -/
structure RecvResult where
  ret : Bool
  len : Nat
  out : List Nat
  state : Receiver

/-- `VWI::Receiver::recv` (VWI.cpp lines 276-298): fail with no copy
while not done; otherwise copy `min(*len, m_length - 3)` bytes
starting after the count byte, clear done, and return the result of
comparing the CRC over the whole buffered message with 0xf0b8. -/
def recv (s : Receiver) (cap : Nat) : RecvResult :=
  if s.done = false then ⟨false, cap, [], s⟩
  else
    let n := if cap > rxlen s then rxlen s else cap
    ⟨CRC (messageBytes s) == 0xf0b8, n,
     (List.range n).map (fun i => s.buffer (1 + i)),
     { s with done := false }⟩

/-- The transmitter state: the `VWI::Transmitter` members used by
`send` and the dispatcher.  The symbol buffer is a total map from
index to symbol. -/
structure Transmitter where
  buffer : Nat → Nat
  length : Nat
  index : Nat
  bit : Nat
  sample : Nat
  enabled : Bool
  msg_count : Nat

/-- The fixed preamble `VWI::Transmitter::header` (VWI.cpp lines
300-303). -/
def header : List Nat := [0x2a, 0x2a, 0x2a, 0x2a, 0x2a, 0x2a, 0x38, 0x2c]

/-- The byte-level frame assembled by `send` (VWI.cpp lines 335-377)
before symbol encoding: the count byte, the payload, then the ones
complement of the CRC over count and payload, low byte first, each
FCS byte reassembled from the nibbles `send` actually encodes. -/
def frameBytes (payload : List Nat) : List Nat :=
  let count := (payload.length + 3) % 256
  let fcs := CRC (count :: payload) ^^^ 65535
  (count :: payload) ++
    [(((fcs >>> 4) &&& 0xf) <<< 4) ||| (fcs &&& 0xf),
     (((fcs >>> 12) &&& 0xf) <<< 4) ||| ((fcs >>> 8) &&& 0xf)]

/-- The encoded symbol stream `send` writes after the preamble: two
length symbols, two symbols per payload byte (high nibble first), and
four FCS symbols. -/
def frameSymbols (payload : List Nat) : List Nat :=
  let count := (payload.length + 3) % 256
  let fcs := CRC (count :: payload) ^^^ 65535
  [encodeSym (count >>> 4), encodeSym (count &&& 0xf)] ++
  payload.flatMap (fun b =>
    [encodeSym ((b % 256) >>> 4), encodeSym (b &&& 0xf)]) ++
  [encodeSym ((fcs >>> 4) &&& 0xf), encodeSym (fcs &&& 0xf),
   encodeSym ((fcs >>> 12) &&& 0xf), encodeSym ((fcs >>> 8) &&& 0xf)]

/-- `VWI::Transmitter::send` (VWI.cpp lines 335-377): reject oversized
payloads before any state change; otherwise assemble the frame behind
the preamble and arm the transmitter as `begin` does (index, bit and
sample reset, enabled set). -/
def send (t : Transmitter) (payload : List Nat) : Bool × Transmitter :=
  if PAYLOAD_MAX < payload.length then (false, t)
  else
    let syms := frameSymbols payload
    (true,
     { t with
       buffer := fun i =>
         if i < HEADER_MAX then header.getD i 0
         else if i - HEADER_MAX < syms.length then syms.getD (i - HEADER_MAX) 0
         else t.buffer i,
       length := HEADER_MAX + syms.length,
       index := 0, bit := 0, sample := 0,
       enabled := true })

/-- The transmitter part of the interrupt handler (VWI.cpp lines
398-417): when enabled, post-increment the tick subdivider and on its
0 value either finish (`end` — modelled from the spec, which says the
transmitter is disabled once all symbols are sent — plus the message
counter increment done inline in the ISR) or output the next bit of
the current symbol; in all cases reset the subdivider past 7.  The
second component is the bit value written to the pin, if any. -/
def txTick (t : Transmitter) : Transmitter × Option Nat :=
  if t.enabled then
    let t1 := { t with sample := t.sample + 1 }
    let r : Transmitter × Option Nat :=
      if t.sample = 0 then
        if t1.length ≤ t1.index then
          ({ t1 with enabled := false, msg_count := t1.msg_count + 1 },
           (none : Option Nat))
        else
          let o := t1.buffer t1.index &&& (1 <<< t1.bit)
          let t2 := { t1 with bit := t1.bit + 1 }
          let t3 := if 6 ≤ t2.bit then { t2 with bit := 0, index := t2.index + 1 }
                    else t2
          (t3, some o)
      else (t1, none)
    (if 7 < r.1.sample then { r.1 with sample := 0 } else r.1, r.2)
  else
    (if 7 < t.sample then { t with sample := 0 } else t, none)

/-- The channel state seen by the interrupt handler: the registered
receiver and transmitter singletons (null when never constructed). -/
structure Channel where
  rx : Option Receiver
  tx : Option Transmitter

/-- The half-duplex gate of the interrupt handler (VWI.cpp lines
391-393 and 419-421): a receiver is registered and enabled and no
registered transmitter is enabled. -/
def rxGate (rx : Option Receiver) (tx : Option Transmitter) : Bool :=
  match rx with
  | none => false
  | some r => r.enabled && (match tx with
                            | none => true
                            | some t => !t.enabled)

/-- The timer compare-match interrupt handler `ISR(TIMER1_COMPA_vect)`
(VWI.cpp lines 384-423): sample the input pin under the half-duplex
gate, step the transmitter, then re-evaluate the gate against the
stepped transmitter and run the receiver PLL.  Returns the new channel
state and any bit written to the output pin. -/
def ISR (pin : Bool) (c : Channel) : Channel × Option Nat :=
  let rx1 := match c.rx with
    | none => none
    | some r => if rxGate (some r) c.tx then some { r with sample := pin }
                else some r
  let txr := match c.tx with
    | none => (none, (none : Option Nat))
    | some t => let p := txTick t
                (some p.1, p.2)
  let rx2 := match rx1 with
    | none => none
    | some r => if rxGate (some r) txr.1 then some (PLL r) else some r
  (⟨rx2, txr.1⟩, txr.2)

/-- Clock divider table of `_timer_calc` (VWI.cpp line 79); index 0
and the trailing 3333 are error flags. -/
def prescalers : List Nat := [0, 1, 8, 64, 256, 1024, 3333]

/-- The CPU clock frequency.  Modelled from the spec: `F_CPU` is a
build-time constant absent from the sources; 16 MHz is the standard
AVR value. -/
def F_CPU : Nat := 16000000

/-- The tick count `_timer_calc` computes for prescaler index `p`
(VWI.cpp lines 93-97): the number of prescaled clock ticks in one
eighth of a bit period.  The C code computes this with `float`
arithmetic truncated by `long(..)`; it is modelled as exact integer
arithmetic truncated toward zero. -/
def calc_ticks (speed p : Nat) : Nat :=
  F_CPU / (prescalers.getD p 0 * speed * 8)

/-- The loop break condition of `_timer_calc` (VWI.cpp line 99):
the tick count fits with a 1-tick safety margin, strictly below
`max_ticks`. -/
def tickOK (speed max_ticks p : Nat) : Bool :=
  decide (1 < calc_ticks speed p) && decide (calc_ticks speed p < max_ticks)

/-- `_timer_calc` (VWI.cpp lines 75-115): guard against zero speed,
then run the prescaler loop of lines 91-103 — here unrolled over the
six indices — which breaks at the first index whose tick count
satisfies the break condition and otherwise leaves `prescaler = 7`
with the tick count computed for index 6.  Finally apply the error
check of line 106 (`prescaler == 6`, tick count outside
`[2, max_ticks]`). -/
def timer_calc (speed max_ticks : Nat) : Nat × Nat :=
  if speed = 0 then (0, 0)
  else
    let r : Nat × Nat :=
      if tickOK speed max_ticks 1 then (1, calc_ticks speed 1)
      else if tickOK speed max_ticks 2 then (2, calc_ticks speed 2)
      else if tickOK speed max_ticks 3 then (3, calc_ticks speed 3)
      else if tickOK speed max_ticks 4 then (4, calc_ticks speed 4)
      else if tickOK speed max_ticks 5 then (5, calc_ticks speed 5)
      else if tickOK speed max_ticks 6 then (6, calc_ticks speed 6)
      else (7, calc_ticks speed 6)
    if r.1 = 6 ∨ r.2 < 2 ∨ max_ticks < r.2 then (0, 0) else r

/-- The invariant relating the receiver's framing fields: an active
receiver has no pending done message and its buffer length stays
below the declared count once the count byte has been accepted, and a
done message has exactly the declared, range-checked length. -/
def Inv (s : Receiver) : Prop :=
  (s.active = true → s.done = false) ∧
  (s.active = true → s.length ≠ 0 →
    s.length < s.count ∧ 4 ≤ s.count ∧ s.count ≤ MESSAGE_MAX) ∧
  (s.done = true →
    s.length = s.count ∧ 4 ≤ s.count ∧ s.count ≤ MESSAGE_MAX)

/-- A quiescent receiver used as the base of concrete test states. -/
def rx0 : Receiver :=
  { enabled := true, sample := false, last_sample := false, pll_ramp := 0,
    integrator := 0, bits := 0, bit_count := 0, length := 0, count := 0,
    buffer := fun _ => 0, active := false, done := false, good := 0, bad := 0 }

/-- A receiver holding a completed 4-byte message of zero bytes, whose
checksum does not validate. -/
def rxBad : Receiver := { rx0 with length := 4, count := 4, done := true }

/-- A receiver one tick away from completing the 12-bit window of a
first frame byte that decodes to 6. -/
def rxLen : Receiver :=
  { rx0 with pll_ramp := 140, active := true, bit_count := 11, bits := 3354 }

/-- An inactive receiver one tick away from shifting in the last bit
of the start marker, while an unread completed message is pending. -/
def rxMark : Receiver :=
  { rx0 with pll_ramp := 140, integrator := 5, bits := 0x670,
             length := 6, count := 6, done := true }

/-- A quiescent transmitter used as the base of concrete test states. -/
def tx0 : Transmitter :=
  { buffer := fun _ => 0, length := 0, index := 0, bit := 0, sample := 0,
    enabled := false, msg_count := 0 }

/-- A channel with only an enabled receiver registered. -/
def ch0 : Channel := ⟨some rx0, none⟩

/-! ## Helper lemmas -/

theorem shiftRight_xor (a b n : Nat) : (a ^^^ b) >>> n = (a >>> n) ^^^ (b >>> n) := by
  apply Nat.eq_of_testBit_eq
  intro i
  simp [Nat.testBit_shiftRight, Nat.testBit_xor]

theorem testBit_mod256 (x i : Nat) :
    (x % 256).testBit i = (decide (i < 8) && x.testBit i) := by
  have h := Nat.testBit_mod_two_pow x 8 i
  norm_num at h
  exact h

theorem testBit_15 (i : Nat) : (0xf : Nat).testBit i = decide (i < 4) := by
  have h := Nat.testBit_two_pow_sub_one 4 i
  norm_num at h
  exact h

theorem xor_mod256 (a b : Nat) : (a ^^^ b) % 256 = (a % 256) ^^^ (b % 256) := by
  apply Nat.eq_of_testBit_eq
  intro i
  simp [testBit_mod256, Nat.testBit_xor]
  by_cases hi : i < 8 <;> simp [hi]

/-- Reassembling a byte from its two nibbles, the shape `send` uses
for each FCS byte, yields the byte. -/
theorem reassemble (x : Nat) :
    ((((x >>> 4) &&& 0xf) <<< 4) ||| (x &&& 0xf)) = x % 256 := by
  apply Nat.eq_of_testBit_eq
  intro i
  simp [testBit_mod256, Nat.testBit_or, Nat.testBit_and, testBit_15,
        Nat.testBit_shiftLeft, Nat.testBit_shiftRight]
  by_cases h4 : 4 ≤ i
  · by_cases h8 : i < 8
    · have he : 4 + (i - 4) = i := by omega
      simp [h4, h8, he, show i - 4 < 4 by omega]
    · simp [h4, h8, show ¬(i - 4 < 4) by omega]
  · simp [h4, show i < 4 by omega, show i < 8 by omega]

/-- Feeding the low byte of the complemented running CRC into the CRC
mixes the data to the constant 255, leaving a state that depends only
on the high byte. -/
theorem update_fcs_lo (c : Nat) :
    crc_ccitt_update c ((c % 256) ^^^ 255) =
      ((3840 ||| (c / 256 % 256)) ^^^ 120) % 65536 := by
  have hlt : (c % 256) ^^^ 255 < 256 := by
    have h1 : c % 256 < 2 ^ 8 := by
      have := Nat.mod_lt c (y := 256) (by norm_num)
      omega
    have h2 : (255 : Nat) < 2 ^ 8 := by norm_num
    have h3 := Nat.xor_lt_two_pow h1 h2
    omega
  have h1 : lo8 ((c % 256) ^^^ 255) = (c % 256) ^^^ 255 := Nat.mod_eq_of_lt hlt
  have h2 : ((c % 256) ^^^ 255) ^^^ lo8 c = 255 := by
    unfold lo8
    rw [Nat.xor_comm (c % 256) 255, Nat.xor_assoc, Nat.xor_self, Nat.xor_zero]
  unfold crc_ccitt_update
  rw [h1, h2, show mix 255 = 15 by decide]
  unfold crcStep hi8
  rw [show (15 : Nat) <<< 8 = 3840 by decide, show (15 : Nat) >>> 4 = 0 by decide,
      Nat.xor_zero, show (15 : Nat) <<< 3 = 120 by decide]

/-- After absorbing the low FCS byte the CRC state is determined by
the high byte alone; absorbing the high FCS byte then always yields
the residue 0xf0b8 (a 256-case check). -/
theorem resid_hi : ∀ h, h < 256 →
    crc_ccitt_update (((3840 ||| h) ^^^ 120) % 65536) (h ^^^ 255) = 0xf0b8 := by
  decide

/-- Absorbing the two complemented-CRC bytes, reassembled from nibbles
exactly as `send` encodes them, drives any CRC state to the residue
0xf0b8. -/
theorem crc_residue (c : Nat) :
    crc_ccitt_update (crc_ccitt_update c
        (((((c ^^^ 65535) >>> 4) &&& 0xf) <<< 4) ||| ((c ^^^ 65535) &&& 0xf)))
      (((((c ^^^ 65535) >>> 12) &&& 0xf) <<< 4) ||| (((c ^^^ 65535) >>> 8) &&& 0xf))
      = 0xf0b8 := by
  have hb1 : ((((c ^^^ 65535) >>> 4) &&& 0xf) <<< 4) ||| ((c ^^^ 65535) &&& 0xf)
      = (c % 256) ^^^ 255 := by
    rw [reassemble, xor_mod256]
  have h12 : (c ^^^ 65535) >>> 12 = ((c ^^^ 65535) >>> 8) >>> 4 := by
    rw [← Nat.shiftRight_add]
  have hb2 : ((((c ^^^ 65535) >>> 12) &&& 0xf) <<< 4) ||| (((c ^^^ 65535) >>> 8) &&& 0xf)
      = (c / 256 % 256) ^^^ 255 := by
    rw [h12, reassemble ((c ^^^ 65535) >>> 8), shiftRight_xor, xor_mod256]
    norm_num [Nat.shiftRight_eq_div_pow]
  rw [hb1, hb2, update_fcs_lo]
  exact resid_hi (c / 256 % 256) (Nat.mod_lt _ (by norm_num))

/-! ## Claim theorems -/

/-- C2: for every payload of length 0..PAYLOAD_MAX and arbitrary byte
content, the CRC-CCITT (seed 0xFFFF) over the transmitted frame bytes
{count, payload, fcs_lo, fcs_hi} — with the FCS produced by
complementing the CRC over count and payload and appending it low
byte first — equals the fixed residue 0xF0B8, the value `recv`
compares against. -/
theorem frame_crc_residue (payload : List Nat)
    (_h : payload.length ≤ PAYLOAD_MAX) :
    CRC (frameBytes payload) = 0xf0b8 := by
  unfold frameBytes
  simp only [CRC, List.foldl_append, List.foldl_cons, List.foldl_nil]
  exact crc_residue (List.foldl crc_ccitt_update 0xffff
    (((payload.length + 3) % 256) :: payload))

theorem frame_crc_residue_witness :
    [1, 2, 3].length ≤ PAYLOAD_MAX ∧ CRC (frameBytes [1, 2, 3]) = 0xf0b8 :=
  ⟨by decide, frame_crc_residue [1, 2, 3] (by decide)⟩

/-- C4: decoding inverts encoding on all 16 nibbles, the forward table
is injective, and any 6-bit value not present in the table decodes to
the fallback 0. -/
theorem codec_roundtrip :
    (∀ n, n < 16 → symbol_6to4 (encodeSym n) = n) ∧
    (∀ i, i < 16 → ∀ j, j < 16 → symbols.getD i 0 = symbols.getD j 0 → i = j) ∧
    (∀ v, v < 64 → (∀ n, n < 16 → symbols.getD n 0 ≠ v) → symbol_6to4 v = 0) := by
  decide

theorem codec_roundtrip_witness : symbol_6to4 (encodeSym 7) = 7 :=
  codec_roundtrip.1 7 (by decide)

/-- C8: `send` with an oversized payload fails and leaves the whole
transmitter state unchanged; the size check precedes the blocking wait
and the frame assembly, which are reached only in the other branch. -/
theorem send_oversized (t : Transmitter) (payload : List Nat)
    (h : PAYLOAD_MAX < payload.length) : send t payload = (false, t) := by
  unfold send
  rw [if_pos h]

theorem send_oversized_witness :
    PAYLOAD_MAX < (List.replicate 28 (0 : Nat)).length ∧
    send tx0 (List.replicate 28 0) = (false, tx0) :=
  ⟨by decide, send_oversized tx0 (List.replicate 28 0) (by decide)⟩

/-- C5 counterexample: at speed 31 and max_ticks 64516 the smallest
divider's tick count (64516) lies in the claimed inclusive range
`[2, max_ticks]`, yet `_timer_calc` does not return that first
(divider, tick-count) pair — it skips to the next divider because its
loop accepts only tick counts strictly below `max_ticks`. -/
theorem timer_calc_inclusive_cex :
    timer_calc 31 64516 = (2, 8064) ∧
    2 ≤ calc_ticks 31 1 ∧ calc_ticks 31 1 ≤ 64516 ∧
    timer_calc 31 64516 ≠ (1, calc_ticks 31 1) := by
  decide

/-- C5 (amended): with a nonzero bit rate, the calculator returns the
first divider index 1..5 whose tick count lies in `[2, max_ticks)`;
when no index 1..5 qualifies it fails with (0, 0) — except that when
the tick count computed for the sentinel entry 3333 equals `max_ticks`
exactly, the loop falls through and the error check passes, returning
the out-of-range index 7 with that tick count.  With a zero bit rate
it always fails. -/
theorem timer_calc_characterization (speed max_ticks : Nat) :
    (speed = 0 → timer_calc speed max_ticks = (0, 0)) ∧
    (speed ≠ 0 → ∀ p, 1 ≤ p → p ≤ 5 →
      2 ≤ calc_ticks speed p → calc_ticks speed p < max_ticks →
      (∀ q, 1 ≤ q → q < p →
        ¬(2 ≤ calc_ticks speed q ∧ calc_ticks speed q < max_ticks)) →
      timer_calc speed max_ticks = (p, calc_ticks speed p)) ∧
    (speed ≠ 0 →
      (∀ p, 1 ≤ p → p ≤ 5 →
        ¬(2 ≤ calc_ticks speed p ∧ calc_ticks speed p < max_ticks)) →
      timer_calc speed max_ticks =
        if calc_ticks speed 6 = max_ticks ∧ 2 ≤ max_ticks then (7, max_ticks)
        else (0, 0)) := by
  refine ⟨fun h0 => by simp [timer_calc, h0], fun h0 p h1 h5 hlo hhi hfirst => ?_,
          fun h0 hnone => ?_⟩
  · have hOK : ∀ q, 1 ≤ q → q < p → tickOK speed max_ticks q = false := by
      intro q hq1 hqp
      have := hfirst q hq1 hqp
      simp only [tickOK, Bool.and_eq_false_imp, decide_eq_true_eq,
                 decide_eq_false_iff_not]
      omega
    have hOKp : tickOK speed max_ticks p = true := by
      simp only [tickOK, Bool.and_eq_true, decide_eq_true_eq]
      omega
    interval_cases p <;>
      simp_all [timer_calc] <;> omega
  · have hOK : ∀ q, 1 ≤ q → q ≤ 5 → tickOK speed max_ticks q = false := by
      intro q hq1 hq5
      have := hnone q hq1 hq5
      simp only [tickOK, Bool.and_eq_false_imp, decide_eq_true_eq,
                 decide_eq_false_iff_not]
      omega
    have h1 := hOK 1 (by omega) (by omega)
    have h2 := hOK 2 (by omega) (by omega)
    have h3 := hOK 3 (by omega) (by omega)
    have h4 := hOK 4 (by omega) (by omega)
    have h5 := hOK 5 (by omega) (by omega)
    by_cases h6 : tickOK speed max_ticks 6 = true
    · have h6' : 1 < calc_ticks speed 6 ∧ calc_ticks speed 6 < max_ticks := by
        simpa [tickOK] using h6
      simp only [timer_calc, h0, if_neg h0, h1, h2, h3, h4, h5, h6]
      simp only [if_false, if_true, Bool.false_eq_true]
      split <;> split <;> simp_all
    · have h6' : ¬(1 < calc_ticks speed 6 ∧ calc_ticks speed 6 < max_ticks) := by
        simpa [tickOK] using h6
      simp only [timer_calc, h0, if_neg h0, h1, h2, h3, h4, h5,
                 Bool.not_eq_true] at h6 ⊢
      simp only [h6]
      simp only [if_false, Bool.false_eq_true]
      split <;> split <;> simp_all <;> omega

theorem timer_calc_characterization_witness :
    timer_calc 1000 65535 = (1, calc_ticks 1000 1) :=
  (timer_calc_characterization 1000 65535).2.1 (by decide) 1 (by decide) (by decide)
    (by decide) (by decide) (fun q hq1 hq0 => absurd (Nat.lt_of_lt_of_le hq0 hq1)
      (Nat.lt_irrefl q))

/-- C1 counterexample: with a completed zero-filled 4-byte message
buffered (whose checksum does not validate), `recv` still copies the
payload bytes and clears done, but returns `false` — there is no
separate checksum-validity report in addition to a success result, so
an invalid-checksum message is not "delivered with recv reporting
success". -/
theorem recv_invalid_checksum_cex :
    rxBad.done = true ∧ (recv rxBad 30).out = [0] ∧
    (recv rxBad 30).state.done = false ∧ (recv rxBad 30).ret = false := by
  decide

/-- C1 (amended): while no completed message is buffered `recv` fails
and delivers nothing; with a completed message buffered it copies
`min(caller capacity, payload length)` bytes (skipping the count byte),
clears done, and returns — as its only result — whether the CRC over
the whole buffered message equals 0xF0B8; the bytes are delivered even
when that single result is false. -/
theorem recv_characterization (s : Receiver) (cap : Nat) :
    (s.done = false → recv s cap = ⟨false, cap, [], s⟩) ∧
    (s.done = true →
      (recv s cap).len = min cap (rxlen s) ∧
      (recv s cap).out =
        (List.range (min cap (rxlen s))).map (fun i => s.buffer (1 + i)) ∧
      (recv s cap).state = { s with done := false } ∧
      ((recv s cap).ret = true ↔ CRC (messageBytes s) = 0xf0b8)) := by
  constructor
  · intro h
    simp [recv, h]
  · intro h
    have hn : (if cap > rxlen s then rxlen s else cap) = min cap (rxlen s) := by
      split_ifs <;> omega
    simp [recv, h, hn]

theorem recv_characterization_witness :
    recv rx0 5 = ⟨false, 5, [], rx0⟩ :=
  (recv_characterization rx0 5).1 rfl

/-! ## PLL projection lemmas -/

theorem processBit_ramp (s : Receiver) : (processBit s).pll_ramp = s.pll_ramp := by
  unfold processBit
  dsimp only
  split_ifs <;> rfl

theorem processBit_bits (s : Receiver) : (processBit s).bits = s.bits := by
  unfold processBit
  dsimp only
  split_ifs <;> rfl

theorem processBit_integrator (s : Receiver) :
    (processBit s).integrator = s.integrator := by
  unfold processBit
  dsimp only
  split_ifs <;> rfl

/-- C6: on each PLL tick the ramp advances by the retard increment on
an early transition, the advance increment on a late one, and the
nominal increment `RAMP_MAX / 8` with no transition; reaching the
maximum shifts the 12-bit accumulator right with its new top bit set
exactly when the integrator (including the current sample) counted at
least 5 high samples, subtracts the maximum from the ramp keeping the
remainder, and resets the integrator. -/
theorem pll_ramp_step (s : Receiver) :
    let inc := if s.sample ≠ s.last_sample then
        (if s.pll_ramp < RAMP_TRANSITION then RAMP_INC_RETARD else RAMP_INC_ADVANCE)
      else RAMP_INC
    let intg := if s.sample then s.integrator + 1 else s.integrator
    RAMP_INC = RAMP_MAX / 8 ∧
    (s.pll_ramp + inc < RAMP_MAX →
      (PLL s).pll_ramp = s.pll_ramp + inc ∧ (PLL s).integrator = intg ∧
      (PLL s).bits = s.bits) ∧
    (RAMP_MAX ≤ s.pll_ramp + inc →
      (PLL s).pll_ramp = s.pll_ramp + inc - RAMP_MAX ∧
      (PLL s).integrator = 0 ∧
      (PLL s).bits = (s.bits >>> 1) ||| (if 5 ≤ intg then 0x800 else 0)) := by
  intro inc intg
  unfold PLL integrate rampAdvance bitBoundary
  refine ⟨rfl, ?_, ?_⟩ <;> intro hb <;>
    by_cases hs : s.sample <;> by_cases ht : s.sample = s.last_sample <;>
    by_cases htr : s.pll_ramp < RAMP_TRANSITION <;>
    simp_all [inc, intg, processBit_ramp, processBit_bits, processBit_integrator] <;>
    split_ifs <;>
    simp_all [processBit_ramp, processBit_bits, processBit_integrator] <;>
    omega

theorem pll_ramp_step_witness :
    (PLL rx0).pll_ramp = 0 + RAMP_INC ∧ (PLL rx0).integrator = 0 ∧
    (PLL rx0).bits = rx0.bits :=
  (pll_ramp_step rx0).2.1 (by decide)

/-- On a transition-free tick that reaches the ramp maximum, `PLL` is
the framing step applied to the boundary state: window shifted with
the majority-vote bit, remainder kept in the ramp, integrator
cleared. -/
theorem PLL_boundary (s : Receiver) (hs : s.sample = s.last_sample)
    (hr : RAMP_MAX ≤ s.pll_ramp + RAMP_INC) :
    PLL s = processBit
      { s with
        bits := (s.bits >>> 1) |||
          (if 5 ≤ (if s.sample then s.integrator + 1 else s.integrator)
           then 0x800 else 0),
        pll_ramp := s.pll_ramp + RAMP_INC - RAMP_MAX,
        integrator := 0 } := by
  unfold PLL integrate rampAdvance bitBoundary
  by_cases hsamp : s.sample <;>
    simp_all

/-- C3: when a transition-free boundary tick completes the 12-bit
window of the first byte of a frame (length still 0), a decoded value
outside `[4, MESSAGE_MAX]` drops the frame — active cleared, bad
counter incremented, done and the buffer untouched, nothing appended —
while a value inside the range is stored as the declared count with
the byte appended and the receiver still active; for later bytes the
buffer grows by one and reaching the declared count completes the
message (done set, active cleared, good counter incremented). -/
theorem pll_frame_length_handling (s : Receiver) (intg data : Nat)
    (hintg : intg = if s.sample then s.integrator + 1 else s.integrator)
    (hdata : data = decodedByte
      ((s.bits >>> 1) ||| (if 5 ≤ intg then 0x800 else 0)))
    (hs : s.sample = s.last_sample)
    (hr : RAMP_MAX ≤ s.pll_ramp + RAMP_INC)
    (ha : s.active = true)
    (hb : s.bit_count = 11) :
    (s.length = 0 → data < 4 ∨ MESSAGE_MAX < data →
      (PLL s).active = false ∧ (PLL s).bad = s.bad + 1 ∧
      (PLL s).done = s.done ∧ (PLL s).length = 0 ∧
      (PLL s).good = s.good ∧ (PLL s).buffer = s.buffer) ∧
    (s.length = 0 → 4 ≤ data → data ≤ MESSAGE_MAX →
      (PLL s).count = data ∧ (PLL s).length = 1 ∧ (PLL s).buffer 0 = data ∧
      (PLL s).active = true ∧ (PLL s).done = s.done ∧
      (PLL s).good = s.good) ∧
    (0 < s.length →
      (PLL s).length = s.length + 1 ∧ (PLL s).buffer s.length = data ∧
      (PLL s).count = s.count ∧
      (s.count ≤ s.length + 1 →
        (PLL s).done = true ∧ (PLL s).active = false ∧
        (PLL s).good = s.good + 1) ∧
      (s.length + 1 < s.count →
        (PLL s).active = true ∧ (PLL s).done = s.done ∧
        (PLL s).good = s.good)) := by
  rw [hintg] at hdata
  rw [PLL_boundary s hs hr]
  unfold processBit
  dsimp only
  rw [if_pos ha, if_neg (by omega : ¬ s.bit_count + 1 < 12)]
  rw [← hdata]
  refine ⟨fun hl hd => ?_, fun hl hd4 hdM => ?_, fun hl => ?_⟩
  · rw [if_pos ⟨hl, hd⟩]
    exact ⟨rfl, rfl, rfl, hl, rfl, rfl⟩
  · rw [if_neg (by omega : ¬(s.length = 0 ∧ (data < 4 ∨ MESSAGE_MAX < data))),
        if_pos hl]
    dsimp only
    rw [if_neg (by omega : ¬ data ≤ s.length + 1)]
    dsimp only
    refine ⟨rfl, by omega, ?_, ha, rfl, rfl⟩
    rw [hl, Function.update_same]
  · rw [if_neg (by omega : ¬(s.length = 0 ∧ (data < 4 ∨ MESSAGE_MAX < data))),
        if_neg (by omega : ¬ s.length = 0)]
    dsimp only
    refine ⟨?_, ?_, ?_, fun hc => ?_, fun hc => ?_⟩
    · split <;> rfl
    · split <;> (dsimp only; rw [Function.update_same])
    · split <;> rfl
    · rw [if_pos (by omega : s.count ≤ s.length + 1)]
      exact ⟨rfl, rfl, rfl⟩
    · rw [if_neg (by omega : ¬ s.count ≤ s.length + 1)]
      exact ⟨ha, rfl, rfl⟩

theorem pll_frame_length_handling_witness :
    (PLL rxLen).count = 6 ∧ (PLL rxLen).length = 1 ∧
    (PLL rxLen).buffer 0 = 6 ∧ (PLL rxLen).active = true ∧
    (PLL rxLen).done = rxLen.done ∧ (PLL rxLen).good = rxLen.good :=
  (pll_frame_length_handling rxLen 0 6 (by decide) (by decide) (by decide)
    (by decide) (by decide) (by decide)).2.1 (by decide) (by decide) (by decide)

/-- C7: when an inactive receiver's boundary tick makes the 12-bit
window equal the start marker 0xb38, it enters the active state,
resets the bit counter and message length, and clears the done flag,
so a previously completed unread message is discarded and a subsequent
`recv` fails and delivers nothing. -/
theorem pll_start_marker (s : Receiver) (cap : Nat)
    (hna : s.active = false)
    (hs : s.sample = s.last_sample)
    (hr : RAMP_MAX ≤ s.pll_ramp + RAMP_INC)
    (hm : (s.bits >>> 1) |||
        (if 5 ≤ (if s.sample then s.integrator + 1 else s.integrator)
         then 0x800 else 0) = 0xb38) :
    (PLL s).active = true ∧ (PLL s).bit_count = 0 ∧ (PLL s).length = 0 ∧
    (PLL s).done = false ∧
    recv (PLL s) cap = ⟨false, cap, [], PLL s⟩ := by
  rw [PLL_boundary s hs hr]
  unfold processBit
  dsimp only
  rw [if_neg (by simp [hna]), if_pos hm]
  exact ⟨rfl, rfl, rfl, rfl, by simp [recv]⟩

theorem pll_start_marker_witness :
    (PLL rxMark).active = true ∧ (PLL rxMark).bit_count = 0 ∧
    (PLL rxMark).length = 0 ∧ (PLL rxMark).done = false ∧
    recv (PLL rxMark) 27 = ⟨false, 27, [], PLL rxMark⟩ :=
  pll_start_marker rxMark 27 (by decide) (by decide) (by decide) (by decide)

/-- The framing step preserves the receiver invariant, whatever state
it is applied to. -/
theorem Inv_processBit (s : Receiver) (h : Inv s) : Inv (processBit s) := by
  obtain ⟨h1, h2, h3⟩ := h
  unfold processBit Inv MESSAGE_MAX at *
  dsimp only
  split_ifs with c1 c2 c3 c4 c5 c5 c6 <;>
    simp_all <;> omega

/-- The integrate and ramp steps do not touch the framing fields. -/
theorem ri_frame (s : Receiver) :
    (rampAdvance (integrate s)).active = s.active ∧
    (rampAdvance (integrate s)).done = s.done ∧
    (rampAdvance (integrate s)).length = s.length ∧
    (rampAdvance (integrate s)).count = s.count := by
  unfold rampAdvance integrate
  split_ifs <;> exact ⟨rfl, rfl, rfl, rfl⟩

theorem Inv_ri (s : Receiver) (h : Inv s) : Inv (rampAdvance (integrate s)) := by
  obtain ⟨f1, f2, f3, f4⟩ := ri_frame s
  unfold Inv
  rw [f1, f2, f3, f4]
  exact h

/-- C10: the receiver invariant is preserved by every PLL tick, and
under it a done message has the declared, range-checked length, so the
payload length `recv` computes is `m_length - 3`, at least 1, with no
`uint8_t` underflow. -/
theorem receiver_invariant (s : Receiver) (h : Inv s) :
    Inv (PLL s) ∧
    (s.done = true →
      s.length = s.count ∧ 4 ≤ s.length ∧ s.length ≤ MESSAGE_MAX ∧
      rxlen s = s.length - 3 ∧ 1 ≤ rxlen s) := by
  constructor
  · unfold PLL
    dsimp only
    split
    · exact Inv_ri s h
    · exact Inv_processBit _ (Inv_ri s h)
  · intro hd
    have h3 := h.2.2 hd
    unfold MESSAGE_MAX at h3 ⊢
    unfold rxlen
    omega

theorem receiver_invariant_witness :
    Inv (PLL rxBad) ∧
    (rxBad.done = true →
      rxBad.length = rxBad.count ∧ 4 ≤ rxBad.length ∧
      rxBad.length ≤ MESSAGE_MAX ∧
      rxlen rxBad = rxBad.length - 3 ∧ 1 ≤ rxlen rxBad) :=
  receiver_invariant rxBad ⟨by decide, by decide, by decide⟩

/-- The transmitter tick never turns the enabled flag on. -/
theorem txTick_enabled_mono (t : Transmitter)
    (h : (txTick t).1.enabled = true) : t.enabled = true := by
  by_cases he : t.enabled
  · exact he
  · exfalso
    unfold txTick at h
    rw [if_neg he] at h
    dsimp only at h
    split at h <;> simp_all

/-- A disabled transmitter stays disabled across a tick. -/
theorem txTick_disabled (t : Transmitter) (h : t.enabled = false) :
    (txTick t).1.enabled = false := by
  unfold txTick
  rw [if_neg (show ¬ t.enabled = true by simp [h])]
  dsimp only
  split <;> exact h

/-- C9: each dispatcher tick samples the input pin first and only
under the half-duplex gate (receiver registered and enabled, no
enabled transmitter); the transmitter is stepped next, with its output
step firing only on the sub-tick where its 0..7 subdivider is 0; and
the receiver's PLL step runs only when the gate still holds against
the stepped transmitter — so the receiver is completely untouched
while the local transmitter stays enabled, and a transmitter that
finishes during the tick lets the PLL run on the previously captured
sample. -/
theorem isr_dispatch (pin : Bool) (c : Channel) :
    (∀ t, c.tx = some t →
      (ISR pin c).1.tx = some (txTick t).1 ∧ (ISR pin c).2 = (txTick t).2) ∧
    (∀ r, c.rx = some r → r.enabled = true →
      (c.tx = none ∨ ∃ t, c.tx = some t ∧ t.enabled = false) →
      (ISR pin c).1.rx = some (PLL { r with sample := pin })) ∧
    (∀ r, c.rx = some r → r.enabled = false → (ISR pin c).1.rx = some r) ∧
    (∀ t, c.tx = some t → (txTick t).1.enabled = true →
      (ISR pin c).1.rx = c.rx) ∧
    (∀ t, c.tx = some t → t.enabled = true → t.sample ≠ 0 →
      (txTick t).1 =
        { t with sample := if 7 < t.sample + 1 then 0 else t.sample + 1 } ∧
      (txTick t).2 = none) ∧
    (∀ r t, c.rx = some r → c.tx = some t → r.enabled = true →
      t.enabled = true → (txTick t).1.enabled = false →
      (ISR pin c).1.rx = some (PLL r)) := by
  refine ⟨fun t ht => ?_, fun r hr hre htx => ?_, fun r hr hre => ?_,
          fun t ht hte => ?_, fun t ht hte hts => ?_,
          fun r t hr ht hre hte htd => ?_⟩
  · simp [ISR, ht]
  · rcases htx with hnone | ⟨t, ht, hte⟩
    · simp [ISR, rxGate, hr, hnone, hre]
    · simp [ISR, rxGate, hr, ht, hre, hte, txTick_disabled t hte]
  · cases hc : c.tx <;> simp [ISR, rxGate, hr, hre, hc]
  · have hen := txTick_enabled_mono t hte
    simp [ISR, rxGate, ht, hte, hen]
    cases hc : c.rx with
    | none => rfl
    | some r => simp [hen]
  · unfold txTick
    rw [if_pos hte]
    dsimp only
    rw [if_neg hts]
    constructor
    · dsimp only
      split <;> rfl
    · rfl
  · simp [ISR, rxGate, hr, ht, hre, hte, htd]

theorem isr_dispatch_witness :
    (ISR true ch0).1.rx = some (PLL { rx0 with sample := true }) :=
  (isr_dispatch true ch0).2.1 rx0 rfl rfl (Or.inl rfl)

end VWI
